import Mathlib

/-!
Verification of the clip-batching and feature-aggregation pipeline of
the Activity-Recognition-Feature-Extraction-for-W-VAD repository
(src/main.py and src/utils/utils.py), as a shallow embedding in Lean 4.

Conventions of the embedding:
* Python integers are `Nat` (all quantities here are non-negative counts
  and indices); numpy float arithmetic on embedding values is modelled
  exactly over `ℚ` at inputs where the float computation is exact.
* A Python function that can raise becomes `Except PyError _`; the
  `PyError` constructors name the concrete Python exception classes that
  the source raises (AssertionError from `assert`, ValueError from
  numpy / tuple unpacking, TypeError from positional-argument binding,
  ZeroDivisionError from division by zero).
* The sequence of frame file names `rgb_files` is only ever consumed
  through `len(frames)` and positional indexing, so a frame store is
  represented by its frame count.
* Embedding vectors produced by the black-box neural network are abstract
  values of a type parameter `E` wherever their numeric content does not
  matter; where the L2-normalization arithmetic matters they are
  `List ℚ`.
-/

/-- Concrete Python exception classes raised by the source code. -/
inductive PyError
  | typeError
  | valueError
  | assertionError
  | zeroDivisionError
deriving DecidableEq, Repr

deriving instance DecidableEq for Except

/-- Models utils.py lines 210-224, `from_frames_to_clips(frames, chunk_size, frequency)`.
The input list `frames` is consumed only via `len(frames)`, so it is passed
as the count `frame_cnt`.  Line 214 `assert(frame_cnt > chunk_size)` raises
AssertionError when the count is not strictly greater; line 217
`(clipped_length // frequency) * frequency` raises ZeroDivisionError when
`frequency` is 0; otherwise lines 218-222 build, for each
`i in range(clipped_length // frequency + 1)`, the window
`[j for j in range(i * frequency, i * frequency + chunk_size)]`. -/
def from_frames_to_clips (frame_cnt chunk_size frequency : Nat) :
    Except PyError (List (List Nat)) :=
  if chunk_size < frame_cnt then
    if frequency = 0 then .error .zeroDivisionError
    else
      let clipped_length := ((frame_cnt - chunk_size) / frequency) * frequency
      .ok ((List.range (clipped_length / frequency + 1)).map
        (fun i => (List.range chunk_size).map (fun j => i * frequency + j)))
  else .error .assertionError

/-- Models the Python positional-argument binding for
`from_frames_to_clips`: the definition at utils.py line 210 declares three
required positional parameters and no defaults, so a call binds exactly
when three arguments are supplied and raises TypeError otherwise. -/
def from_frames_to_clips_call (args : List Nat) : Except PyError (List (List Nat)) :=
  match args with
  | [frames, chunk_size, frequency] => from_frames_to_clips frames chunk_size frequency
  | _ => .error .typeError

/-- Models utils.py line 229, `int(np.ceil(chunk_num / batch_size))`,
as exact ceiling division (the float computation is exact at the machine
scales involved). -/
def np_ceil_div (n c : Nat) : Nat := (n + c - 1) / c

/-- Models the section sizes used by `np.array_split(a, m, axis=0)` on an
array of first-axis length `n`: numpy computes
`Neach_section, extras = divmod(Ntotal, Nsections)` and uses `extras`
sections of size `Neach_section + 1` followed by `Nsections - extras`
sections of size `Neach_section`. -/
def array_split_sizes (n m : Nat) : List Nat :=
  List.replicate (n % m) (n / m + 1) ++ List.replicate (m - n % m) (n / m)

/-- Cuts a list into consecutive groups of the given sizes (the splitting
discipline of `np.array_split` once the section sizes are fixed). -/
def splitBySizes : List Nat → List α → List (List α)
  | [], _ => []
  | s :: ss, l => l.take s :: splitBySizes ss (l.drop s)

/-- Models `np.array_split(a, m, axis=0)` along the first axis, with the
rows of `a` as atomic list elements.  Defined for `m ≥ 1`; numpy raises
for `m = 0`, which the caller below checks. -/
def np_array_split (l : List α) (m : Nat) : List (List α) :=
  splitBySizes (array_split_sizes l.length m) l

/-- Models utils.py lines 227-231, `split_clip_indices_into_batches`.
`chunk_num / batch_size` raises ZeroDivisionError when `batch_size` is 0;
`np.array_split(frame_indices, 0, axis=0)` raises
ValueError (number sections must be larger than 0), which happens exactly
when `frame_indices` is empty (then `batch_num = ceil(0 / batch_size) = 0`);
otherwise the function returns the stacked list of groups produced by
`np.array_split`.  Note the source returns this single stacked array and
computes no companion valid count. -/
def split_clip_indices_into_batches (frame_indices : List α) (batch_size : Nat) :
    Except PyError (List (List α)) :=
  if batch_size = 0 then .error .zeroDivisionError
  else
    let batch_num := np_ceil_div frame_indices.length batch_size
    if batch_num = 0 then .error .valueError
    else .ok (np_array_split frame_indices batch_num)

/-- Models Python tuple unpacking of a sequence into two targets, as in
main.py line 24 `frame_indices, k = split_clip_indices_into_batches(...)`:
iterating the sequence must yield exactly two items, else ValueError. -/
def pyUnpack2 (l : List α) : Except PyError (α × α) :=
  match l with
  | [a, b] => .ok (a, b)
  | _ => .error .valueError

/-- Number of positional parameters of `load_rgb_batch` (utils.py line 241
declares `load_rgb_batch(frames_dir, rgb_files, frame_indices)`, three
required parameters, no defaults). -/
def load_rgb_batch_paramc : Nat := 3

/-- Models only the Python positional-argument binding step of a call to
`load_rgb_batch`: binding succeeds exactly when the number of supplied
arguments equals `load_rgb_batch_paramc`, else TypeError.  The body of
`load_rgb_batch` performs disk reads and image transforms (out of scope
for this embedding), and no call in this repository ever reaches it:
main.py lines 34 and 90 pass four arguments. -/
def load_rgb_batch_call (args_given : Nat) : Except PyError Unit :=
  if args_given = load_rgb_batch_paramc then .ok () else .error .typeError

/-- Models main.py lines 15-24, the prefix of `extract_i3d_features` that
is actually reachable.  Line 20 calls `from_frames_to_clips(rgb_files,
clip_length)` with two arguments for a three-parameter function, which
raises TypeError, so execution never proceeds past it; the rest of the
body (lines 26-68: the batch loop calling `load_rgb_batch` with four
arguments, the per-crop normalization of lines 46-48, and the reassembly
of lines 53-66) is modelled by `load_rgb_batch_call`,
`normalize_features`, `crop_rows` and `extract_i3d_tail` below. -/
def extract_i3d_features (frame_cnt clip_length batch_size : Nat) :
    Except PyError (List (List Nat) × List (List Nat)) := do
  let frame_indices ← from_frames_to_clips_call [frame_cnt, clip_length]
  let stacked ← split_clip_indices_into_batches frame_indices batch_size
  pyUnpack2 stacked

/-- Models main.py lines 71-80, the reachable prefix of
`extract_c3d_features`; it is line-for-line the same prelude as
`extract_i3d_features` (line 76 again calls `from_frames_to_clips` with
two arguments). -/
def extract_c3d_features (frame_cnt clip_length batch_size : Nat) :
    Except PyError (List (List Nat) × List (List Nat)) := do
  let frame_indices ← from_frames_to_clips_call [frame_cnt, clip_length]
  let stacked ← split_clip_indices_into_batches frame_indices batch_size
  pyUnpack2 stacked

/-- Sum of squares of a vector (the square of its Euclidean norm). -/
def sumSq (v : List ℚ) : ℚ := (v.map (fun x => x * x)).sum

/-- Sum of squares of every entry of a 2-D tensor (the square of its
Frobenius norm). -/
def frobSq (t : List (List ℚ)) : ℚ := (t.map sumSq).sum

/-- Exact rational square root for perfect-square rationals: on a rational
whose numerator and denominator are perfect squares this is the exact
square root (and on such inputs the float computation inside torch is
exact as well, so the model is faithful there; all concrete instances
below are of this form). -/
def ratSqrt (q : ℚ) : ℚ := (Nat.sqrt q.num.toNat : ℚ) / (Nat.sqrt q.den : ℚ)

/-- Models `torch.linalg.norm(v)` as called at main.py lines 47 and 103:
with no `dim` argument torch computes the 2-norm of the flattened tensor,
i.e. the Frobenius norm of the whole (clips-in-batch × embedding_dim)
feature matrix, not a per-row norm. -/
def torch_linalg_norm (t : List (List ℚ)) : ℚ := ratSqrt (frobSq t)

/-- Models main.py lines 46-48 (identically lines 102-104):
`v = features; v = v / torch.linalg.norm(v)`.  `features` is the model
output for the whole batch, shape (clips-in-batch × embedding_dim), and
the division broadcasts the single scalar `torch.linalg.norm(v)` over
every entry. -/
def normalize_features (v : List (List ℚ)) : List (List ℚ) :=
  v.map (fun row => row.map (fun x => x / torch_linalg_norm v))

/-- Models main.py lines 53-62 (identically lines 108-118) for one crop
index `i`: `out[i]` is built by appending, for `batch_id` in order,
`full_features[batch_id, i, :k]` when `batch_id == n_batches - 1` and
`full_features[batch_id, i, :]` otherwise, then `np.concatenate(out[i],
axis=0)`.  `full` is indexed batch, then crop, then clip-row; rows are
abstract embedding values `E`. -/
def crop_rows [Inhabited E] (full : List (List (List E))) (k : Nat) (i : Nat) :
    List E :=
  (full.dropLast.map (fun batch => batch.getD i [])).flatten
    ++ ((full.getLastD []).getD i []).take k

/-- Models main.py lines 53-64 (identically lines 109-120): the ten
per-crop concatenations stacked along a new leading crop axis
(`np.expand_dims` then `np.concatenate(axis=0)`), giving a crop-major
(10 × total_clips) array of embedding values. -/
def stack_crops [Inhabited E] (full : List (List (List E))) (k : Nat) :
    List (List E) :=
  (List.range 10).map (crop_rows full k)

/-- Models `np.array(out).transpose([1, 0, 2])` at main.py lines 66 and
121: swap the leading crop axis with the clip axis, leaving the embedding
axis (absorbed into `E`) in place. -/
def transpose_102 [Inhabited E] (a : List (List E)) : List (List E) :=
  (List.range ((a.getD 0 []).length)).map (fun j => a.map (fun row => row.getD j default))

/-- Models the reassembly tail of `extract_i3d_features`, main.py lines
53-66 (after line 65 has squeezed the trailing singleton axes of the
I3D output, which the abstract embedding type `E` absorbs). -/
def extract_i3d_tail [Inhabited E] (full : List (List (List E))) (k : Nat) :
    List (List E) :=
  transpose_102 (stack_crops full k)

/-- Models the reassembly tail of `extract_c3d_features`, main.py lines
109-121; the source duplicates the I3D reassembly code verbatim
(including the final `transpose([1, 0, 2])`). -/
def extract_c3d_tail [Inhabited E] (full : List (List (List E))) (k : Nat) :
    List (List E) :=
  transpose_102 (stack_crops full k)

/-- Concrete instance for the end-to-end scenario: the five windows the
Clip Indexer yields for a 20-frame video with clip_length 16 and
frequency 1 (starts 0,1,2,3,4, each window 16 consecutive indices). -/
def windows20_16 : List (List Nat) :=
  (List.range 5).map (fun i => (List.range 16).map (fun j => i + j))

/-! Helper lemmas about the splitting combinators. -/

theorem splitBySizes_length (ss : List Nat) (l : List α) :
    (splitBySizes ss l).length = ss.length := by
  induction ss generalizing l with
  | nil => rfl
  | cons s ss ih => simp [splitBySizes, ih]

theorem splitBySizes_map_length (ss : List Nat) (l : List α)
    (h : ss.sum ≤ l.length) :
    (splitBySizes ss l).map List.length = ss := by
  induction ss generalizing l with
  | nil => rfl
  | cons s ss ih =>
    simp only [List.sum_cons] at h
    have hs : s ≤ l.length := le_trans (Nat.le_add_right s ss.sum) h
    simp [splitBySizes, List.length_take, Nat.min_eq_left hs,
      ih (l.drop s) (by simp; omega)]

theorem splitBySizes_flatten (ss : List Nat) (l : List α) :
    (splitBySizes ss l).flatten = l.take ss.sum := by
  induction ss generalizing l with
  | nil => simp [splitBySizes]
  | cons s ss ih =>
    simp [splitBySizes, ih, List.sum_cons, List.take_add]

theorem array_split_sizes_length (n m : Nat) (hm : 1 ≤ m) :
    (array_split_sizes n m).length = m := by
  have := Nat.mod_lt n (show 0 < m by omega)
  simp [array_split_sizes]
  omega

theorem array_split_sizes_sum (n m : Nat) (hm : 1 ≤ m) :
    (array_split_sizes n m).sum = n := by
  have h1 : n % m < m := Nat.mod_lt n (by omega)
  have hrm : n % m + (m - n % m) = m := by omega
  simp only [array_split_sizes, List.sum_append, List.sum_replicate, smul_eq_mul]
  calc n % m * (n / m + 1) + (m - n % m) * (n / m)
      = (n % m + (m - n % m)) * (n / m) + n % m := by ring
    _ = m * (n / m) + n % m := by rw [hrm]
    _ = n := Nat.div_add_mod n m

theorem array_split_sizes_getElem (n m i : Nat)
    (hi : i < (array_split_sizes n m).length) :
    (array_split_sizes n m)[i] = if i < n % m then n / m + 1 else n / m := by
  simp only [array_split_sizes] at hi ⊢
  by_cases h : i < n % m
  · rw [List.getElem_append_left (by simpa using h)]
    simp [h]
  · rw [List.getElem_append_right (by simpa using Nat.le_of_not_lt h)]
    simp [h]

theorem array_split_sizes_of_dvd (n m : Nat) (h : m ∣ n) :
    array_split_sizes n m = List.replicate m (n / m) := by
  obtain ⟨t, rfl⟩ := h
  simp [array_split_sizes, Nat.mul_mod_right]

theorem np_array_split_length (l : List α) (m : Nat) (hm : 1 ≤ m) :
    (np_array_split l m).length = m := by
  rw [np_array_split, splitBySizes_length, array_split_sizes_length _ _ hm]

theorem np_array_split_map_length (l : List α) (m : Nat) (hm : 1 ≤ m) :
    (np_array_split l m).map List.length = array_split_sizes l.length m := by
  apply splitBySizes_map_length
  rw [array_split_sizes_sum _ _ hm]

theorem np_array_split_flatten (l : List α) (m : Nat) (hm : 1 ≤ m) :
    (np_array_split l m).flatten = l := by
  rw [np_array_split, splitBySizes_flatten, array_split_sizes_sum _ _ hm,
    List.take_length]

theorem np_ceil_div_pos (n c : Nat) (hn : 1 ≤ n) (hc : 1 ≤ c) :
    1 ≤ np_ceil_div n c := by
  rw [np_ceil_div, Nat.one_le_div_iff (by omega)]
  omega

theorem split_clip_indices_into_batches_ok (ws : List α) (c : Nat)
    (hne : ws ≠ []) (hc : 1 ≤ c) :
    split_clip_indices_into_batches ws c
      = .ok (np_array_split ws (np_ceil_div ws.length c)) := by
  have hn : 1 ≤ ws.length := List.length_pos.mpr hne
  have hm : 1 ≤ np_ceil_div ws.length c := np_ceil_div_pos _ _ hn hc
  rw [split_clip_indices_into_batches]
  simp [show ¬ c = 0 by omega, show ¬ np_ceil_div ws.length c = 0 by omega]

theorem getD_range_map {β : Type} (g : Nat → β) (d : β) (n i : Nat) (hi : i < n) :
    ((List.range n).map g).getD i d = g i := by
  rw [List.getD_eq_getElem?_getD, List.getElem?_map, List.getElem?_range hi]
  rfl

theorem getLastD_of_ne_nil {l : List α} (h : l ≠ []) (d : α) :
    l.getLastD d = l.getLast h := by
  rw [List.getLastD_eq_getLast?, List.getLast?_eq_getLast l h]
  rfl

/-! Claim theorems. -/

/-- C1: the claim says every (clip, crop) embedding row written to the
output is divided by its own Euclidean norm and thus has norm 1.  The
code (main.py lines 46-48 and 102-104) instead divides the whole
(clips-in-batch × embedding_dim) feature tensor of a batch by the single
Frobenius norm `torch.linalg.norm(v)` of that tensor.  Evaluated at a
batch of two clip embeddings (3,0) and (0,4): the global norm is 5, the
whole tensor ends with Frobenius norm 1, but the individual rows end
with squared norms 9/25 and 16/25, not 1. -/
theorem c1_global_norm_eval :
    normalize_features [[3, 0], [0, 4]] = [[3/5, 0], [0, 4/5]] ∧
    frobSq (normalize_features [[3, 0], [0, 4]]) = 1 ∧
    sumSq ((normalize_features [[3, 0], [0, 4]]).getD 0 []) = 9/25 ∧
    sumSq ((normalize_features [[3, 0], [0, 4]]).getD 1 []) = 16/25 ∧
    sumSq ((normalize_features [[3, 0], [0, 4]]).getD 0 []) ≠ 1 ∧
    sumSq ((normalize_features [[3, 0], [0, 4]]).getD 1 []) ≠ 1 := by
  have h25 : frobSq [[3, 0], [0, 4]] = 25 := by norm_num [frobSq, sumSq]
  have hs : Nat.sqrt 25 = 5 := by
    rw [show (25 : Nat) = 5 * 5 by norm_num, Nat.sqrt_eq]
  have h5 : torch_linalg_norm [[3, 0], [0, 4]] = 5 := by
    rw [torch_linalg_norm, h25, ratSqrt]
    have ht : Int.toNat 25 = 25 := rfl
    norm_num [hs, ht, Rat.num_ofNat, Rat.den_ofNat, Nat.sqrt_one]
  refine ⟨?_, ?_, ?_, ?_, ?_, ?_⟩ <;>
    norm_num [normalize_features, h5, frobSq, sumSq]

/-- C2: the claim says the Batch Partitioner returns a pair
(batches, valid_count).  The code (utils.py lines 227-231) returns only
the single stacked array of groups and computes no valid count; the
caller (main.py line 24) unpacks the result into two targets, which
fails with ValueError whenever the number of groups is not 2.  Evaluated
at five windows and capacity 8: the result is one group of five windows,
and the two-target unpacking of main.py line 24 fails. -/
theorem c2_partitioner_no_pair :
    split_clip_indices_into_batches (List.range 5) 8 = .ok [[0, 1, 2, 3, 4]] ∧
    pyUnpack2 [[0, 1, 2, 3, 4]]
      = (.error PyError.valueError : Except PyError (List Nat × List Nat)) ∧
    (do
        let stacked ← split_clip_indices_into_batches (List.range 5) 8
        pyUnpack2 stacked)
      = (.error PyError.valueError : Except PyError (List Nat × List Nat)) := by
  refine ⟨by decide, rfl, by decide⟩

/-- C3: for every frame store with more than clip_length frames, both
feature-extraction entry points raise TypeError before any feature is
produced: main.py lines 20 and 76 call the three-parameter
`from_frames_to_clips` with two arguments, and (were execution to get
there) main.py lines 34 and 90 call the three-parameter `load_rgb_batch`
with four arguments. -/
theorem c3_arity_type_error (fc cl bsz : Nat) (_h : cl < fc) :
    extract_i3d_features fc cl bsz = .error PyError.typeError ∧
    extract_c3d_features fc cl bsz = .error PyError.typeError ∧
    from_frames_to_clips_call [fc, cl] = .error PyError.typeError ∧
    load_rgb_batch_call 4 = .error PyError.typeError :=
  ⟨rfl, rfl, rfl, rfl⟩

/-- Witness for C3 at a 20-frame store with clip_length 16. -/
theorem c3_arity_type_error_witness :
    extract_i3d_features 20 16 8 = .error PyError.typeError ∧
    extract_c3d_features 20 16 8 = .error PyError.typeError ∧
    from_frames_to_clips_call [20, 16] = .error PyError.typeError ∧
    load_rgb_batch_call 4 = .error PyError.typeError :=
  c3_arity_type_error 20 16 8 (by decide)

/-- C7: the Clip Indexer (utils.py lines 210-224) fails exactly when the
frame count is not strictly greater than clip_length: the failure is the
AssertionError of line 214 (the error the spec names
InsufficientFramesError), and any strictly greater frame count is
accepted (for a positive frequency). -/
theorem c7_insufficient_frames_iff (fc cl f : Nat) (hf : 1 ≤ f) :
    ((from_frames_to_clips fc cl f).isOk = true ↔ cl < fc) ∧
    (from_frames_to_clips fc cl f = .error PyError.assertionError ↔ fc ≤ cl) := by
  rw [from_frames_to_clips]
  by_cases h : cl < fc
  · simp [h, show ¬ f = 0 by omega, show ¬ fc ≤ cl by omega, Except.isOk,
      Except.toBool]
  · simp [h, show fc ≤ cl by omega, Except.isOk, Except.toBool]

/-- Witness for C7 at the boundary frame_count = clip_length = 16 (and,
bundled by the iff, the statement that 16 frames are rejected). -/
theorem c7_insufficient_frames_iff_witness :
    (((from_frames_to_clips 16 16 1).isOk = true ↔ 16 < 16) ∧
      (from_frames_to_clips 16 16 1 = .error PyError.assertionError ↔ 16 ≤ 16)) ∧
    (((from_frames_to_clips 17 16 1).isOk = true ↔ 16 < 17) ∧
      (from_frames_to_clips 17 16 1 = .error PyError.assertionError ↔ 17 ≤ 16)) :=
  ⟨c7_insufficient_frames_iff 16 16 1 (by decide),
    c7_insufficient_frames_iff 17 16 1 (by decide)⟩

/-- C8: for an empty sequence of windows the Batch Partitioner fails:
`batch_num = int(np.ceil(0 / batch_size)) = 0` and
`np.array_split(a, 0)` raises ValueError (the failure the spec names
EmptyInputError). -/
theorem c8_empty_input_fails (c : Nat) (hc : 1 ≤ c) :
    split_clip_indices_into_batches ([] : List (List Nat)) c
      = .error PyError.valueError := by
  have h0 : np_ceil_div 0 c = 0 := by
    rw [np_ceil_div]
    exact Nat.div_eq_of_lt (by omega)
  rw [split_clip_indices_into_batches]
  simp [show ¬ c = 0 by omega, h0]

/-- Witness for C8 at the default batch capacity 8. -/
theorem c8_empty_input_fails_witness :
    split_clip_indices_into_batches ([] : List (List Nat)) 8
      = .error PyError.valueError :=
  c8_empty_input_fails 8 (by decide)

/-- C10: the 20-frame scenario with clip_length 16, frequency 1 and
batch_size 8, evaluated componentwise.  The Clip Indexer yields exactly
the five windows with starts 0,1,2,3,4 and length 16; `np.array_split`
puts them into one batch of size 5 (whose true element count is 5); the
reassembly tail applied to that batch with k = 5 yields 5 output rows of
10 crops each.  But the code computes no valid_count: the two-target
unpacking of main.py line 24 fails on the single-batch result, and
`extract_i3d_features` itself raises TypeError at line 20, so no output
array is ever produced. -/
theorem c10_scenario_eval :
    from_frames_to_clips 20 16 1 = .ok windows20_16 ∧
    windows20_16.length = 5 ∧
    windows20_16.map (fun w => w.headD 0) = [0, 1, 2, 3, 4] ∧
    (∀ w ∈ windows20_16, w.length = 16) ∧
    split_clip_indices_into_batches windows20_16 8 = .ok [windows20_16] ∧
    ([windows20_16].getLastD []).length = 5 ∧
    pyUnpack2 [windows20_16]
      = (.error PyError.valueError :
          Except PyError (List (List Nat) × List (List Nat))) ∧
    extract_i3d_features 20 16 8 = .error PyError.typeError ∧
    (extract_i3d_tail [(List.range 10).map (fun _ => windows20_16)] 5).length
      = 5 ∧
    (∀ row ∈ extract_i3d_tail [(List.range 10).map (fun _ => windows20_16)] 5,
      row.length = 10) := by
  refine ⟨by decide, by decide, by decide, by decide, by decide, by decide,
    rfl, rfl, by decide, by decide⟩

/-- C4: for frame_count > clip_length and frequency ≥ 1, the Clip
Indexer produces exactly ((frame_count - clip_length) // frequency *
frequency) / frequency + 1 windows; window i covers the frame indices
[i*frequency, i*frequency + clip_length); every window has length
clip_length; every window start is a (non-negative) multiple of
frequency; and the last window ends at an index ≤ frame_count. -/
theorem c4_clip_indexer_windows (fc cl f : Nat) (h1 : cl < fc) (h2 : 1 ≤ f)
    (ws : List (List Nat)) (hws : from_frames_to_clips fc cl f = .ok ws) :
    ws.length = (fc - cl) / f * f / f + 1 ∧
    (∀ i (hi : i < ws.length),
      ws[i] = (List.range cl).map (fun j => i * f + j)) ∧
    (∀ w ∈ ws, w.length = cl) ∧
    (∀ i (_hi : i < ws.length), f ∣ i * f) ∧
    (ws.length - 1) * f + cl ≤ fc := by
  simp only [from_frames_to_clips, h1, if_true, show ¬ f = 0 by omega,
    if_false, ite_true, ite_false] at hws
  have hws2 : ws = (List.range ((fc - cl) / f * f / f + 1)).map
      (fun i => (List.range cl).map (fun j => i * f + j)) :=
    (Except.ok.inj hws).symm
  subst hws2
  refine ⟨by simp, ?_, ?_, ?_, ?_⟩
  · intro i hi
    simp only [List.length_map, List.length_range] at hi
    simp [List.getElem_map, List.getElem_range]
  · intro w hw
    obtain ⟨i, hi, rfl⟩ := List.mem_map.mp hw
    simp
  · intro i _hi
    exact dvd_mul_left f i
  · simp only [List.length_map, List.length_range, Nat.add_sub_cancel]
    rw [Nat.mul_div_cancel _ (show 0 < f by omega)]
    have h5 : (fc - cl) / f * f ≤ fc - cl := Nat.div_mul_le_self _ _
    omega

/-- Witness for C4 at 18 frames, clip_length 16, frequency 2 (two
windows, starting at 0 and 2). -/
theorem c4_clip_indexer_windows_witness :
    ([[0, 1, 2, 3, 4, 5, 6, 7, 8, 9, 10, 11, 12, 13, 14, 15],
        [2, 3, 4, 5, 6, 7, 8, 9, 10, 11, 12, 13, 14, 15, 16, 17]]
          : List (List Nat)).length = (18 - 16) / 2 * 2 / 2 + 1 ∧
    (∀ i (hi : i < ([[0, 1, 2, 3, 4, 5, 6, 7, 8, 9, 10, 11, 12, 13, 14, 15],
        [2, 3, 4, 5, 6, 7, 8, 9, 10, 11, 12, 13, 14, 15, 16, 17]]
          : List (List Nat)).length),
      ([[0, 1, 2, 3, 4, 5, 6, 7, 8, 9, 10, 11, 12, 13, 14, 15],
        [2, 3, 4, 5, 6, 7, 8, 9, 10, 11, 12, 13, 14, 15, 16, 17]]
          : List (List Nat))[i] = (List.range 16).map (fun j => i * 2 + j)) ∧
    (∀ w ∈ ([[0, 1, 2, 3, 4, 5, 6, 7, 8, 9, 10, 11, 12, 13, 14, 15],
        [2, 3, 4, 5, 6, 7, 8, 9, 10, 11, 12, 13, 14, 15, 16, 17]]
          : List (List Nat)), w.length = 16) ∧
    (∀ i (_hi : i < ([[0, 1, 2, 3, 4, 5, 6, 7, 8, 9, 10, 11, 12, 13, 14, 15],
        [2, 3, 4, 5, 6, 7, 8, 9, 10, 11, 12, 13, 14, 15, 16, 17]]
          : List (List Nat)).length), 2 ∣ i * 2) ∧
    (([[0, 1, 2, 3, 4, 5, 6, 7, 8, 9, 10, 11, 12, 13, 14, 15],
        [2, 3, 4, 5, 6, 7, 8, 9, 10, 11, 12, 13, 14, 15, 16, 17]]
          : List (List Nat)).length - 1) * 2 + 16 ≤ 18 :=
  c4_clip_indexer_windows 18 16 2 (by decide) (by decide) _ (by decide)

/-- Example batch list for the C5 witness: the even split of ten windows
at capacity 4 (three groups, sizes 4,3,3). -/
def bs1034 : List (List Nat) := [[0, 1, 2, 3], [4, 5, 6], [7, 8, 9]]

/-- C5: for n ≥ 1 windows and capacity c ≥ 1 the Batch Partitioner
produces exactly ceil(n/c) groups (as computed by
`int(np.ceil(n / c))`), whose sizes sum to n, are non-increasing, and
differ by at most 1 pairwise — the even-as-possible split semantics of
`np.array_split`, not fixed-size-then-remainder. -/
theorem c5_even_split {α : Type} (ws : List α) (c : Nat) (hne : ws ≠ [])
    (hc : 1 ≤ c) (bs : List (List α))
    (hbs : split_clip_indices_into_batches ws c = .ok bs) :
    bs.length = np_ceil_div ws.length c ∧
    (bs.map List.length).sum = ws.length ∧
    (∀ i j (hi : i < bs.length) (hj : j < bs.length), i ≤ j →
      bs[j].length ≤ bs[i].length) ∧
    (∀ b1 ∈ bs, ∀ b2 ∈ bs, b1.length ≤ b2.length + 1) := by
  have hn : 1 ≤ ws.length := List.length_pos.mpr hne
  set m := np_ceil_div ws.length c with hm_def
  have hm : 1 ≤ m := np_ceil_div_pos _ _ hn hc
  rw [split_clip_indices_into_batches_ok ws c hne hc] at hbs
  have hbs2 : bs = np_array_split ws m := (Except.ok.inj hbs).symm
  subst hbs2
  have hmap : (np_array_split ws m).map List.length
      = array_split_sizes ws.length m := np_array_split_map_length _ _ hm
  have hget : ∀ i (hi : i < (np_array_split ws m).length),
      (np_array_split ws m)[i].length
        = if i < ws.length % m then ws.length / m + 1 else ws.length / m := by
    intro i hi
    have hi2 : i < ((np_array_split ws m).map List.length).length := by
      simpa using hi
    have h1 : ((np_array_split ws m).map List.length)[i]
        = (np_array_split ws m)[i].length := List.getElem_map _
    rw [← h1, List.getElem_of_eq hmap, array_split_sizes_getElem]
  have hmem2 : ∀ b ∈ np_array_split ws m,
      b.length = ws.length / m + 1 ∨ b.length = ws.length / m := by
    intro b hb
    have hx : b.length ∈ array_split_sizes ws.length m := by
      rw [← hmap]
      exact List.mem_map_of_mem List.length hb
    simp only [array_split_sizes, List.mem_append] at hx
    rcases hx with h | h
    · exact Or.inl (List.eq_of_mem_replicate h)
    · exact Or.inr (List.eq_of_mem_replicate h)
  refine ⟨np_array_split_length _ _ hm, ?_, ?_, ?_⟩
  · rw [hmap]
    exact array_split_sizes_sum _ _ hm
  · intro i j hi hj hij
    rw [hget i hi, hget j hj]
    split_ifs <;> omega
  · intro b1 hb1 b2 hb2
    rcases hmem2 b1 hb1 with h | h <;> rcases hmem2 b2 hb2 with h2 | h2 <;> omega

/-- Witness for C5: ten windows at capacity 4 give ceil(10/4) = 3 groups
of sizes 4,3,3 (the even split, not the greedy 4,4,2). -/
theorem c5_even_split_witness :
    (bs1034.length = np_ceil_div (List.range 10).length 4 ∧
      (bs1034.map List.length).sum = (List.range 10).length ∧
      (∀ i j (hi : i < bs1034.length) (hj : j < bs1034.length), i ≤ j →
        bs1034[j].length ≤ bs1034[i].length) ∧
      (∀ b1 ∈ bs1034, ∀ b2 ∈ bs1034, b1.length ≤ b2.length + 1)) ∧
    bs1034.map List.length = [4, 3, 3] :=
  ⟨c5_even_split (List.range 10) 4 (by decide) (by decide) bs1034 (by decide),
    by decide⟩

/-- Example batch list for the C6 witness: the even split of eighteen
windows at capacity 8 (three groups of six). -/
def bs18 : List (List Nat) :=
  [[0, 1, 2, 3, 4, 5], [6, 7, 8, 9, 10, 11], [12, 13, 14, 15, 16, 17]]

/-- C6: the reassembly of main.py lines 53-62, fed the batches produced
by the Batch Partitioner (in the uniform case, where all groups have
equal size — the only case in which the stacked accumulator tensor of
line 30 is well-formed) with k equal to the true element count of the
final group, emits, for each crop, every clip embedding exactly once and
in window order: the per-crop concatenated row list is exactly the
original window list mapped through the (crop-specific) embedding, so
its row count equals the window count and no placeholder row leaks. -/
theorem c6_reassembly_exact {W E : Type} [Inhabited E] (ws : List W) (c : Nat)
    (emb : Nat → W → E) (i : Nat) (hi : i < 10) (hne : ws ≠ []) (hc : 1 ≤ c)
    (hdvd : np_ceil_div ws.length c ∣ ws.length) (bs : List (List W))
    (hbs : split_clip_indices_into_batches ws c = .ok bs) :
    crop_rows (bs.map (fun b => (List.range 10).map (fun cr => b.map (emb cr))))
        (ws.length / np_ceil_div ws.length c) i = ws.map (emb i) ∧
    (crop_rows (bs.map (fun b => (List.range 10).map (fun cr => b.map (emb cr))))
        (ws.length / np_ceil_div ws.length c) i).length = ws.length := by
  have hn : 1 ≤ ws.length := List.length_pos.mpr hne
  set m := np_ceil_div ws.length c with hm_def
  have hm : 1 ≤ m := np_ceil_div_pos _ _ hn hc
  rw [split_clip_indices_into_batches_ok ws c hne hc] at hbs
  have hbs2 : bs = np_array_split ws m := (Except.ok.inj hbs).symm
  have hlen : bs.length = m := by
    rw [hbs2]
    exact np_array_split_length _ _ hm
  have hbs_ne : bs ≠ [] := by
    intro h
    rw [h] at hlen
    simp at hlen
    omega
  have hmap : bs.map List.length = List.replicate m (ws.length / m) := by
    rw [hbs2, np_array_split_map_length _ _ hm, array_split_sizes_of_dvd _ _ hdvd]
  have hflat : bs.flatten = ws := by
    rw [hbs2]
    exact np_array_split_flatten _ _ hm
  have hlast_len : (bs.getLast hbs_ne).length = ws.length / m := by
    have hmem : (bs.getLast hbs_ne).length ∈ bs.map List.length :=
      List.mem_map_of_mem List.length (List.getLast_mem hbs_ne)
    rw [hmap] at hmem
    exact List.eq_of_mem_replicate hmem
  have hfull_ne :
      bs.map (fun b => (List.range 10).map (fun cr => b.map (emb cr))) ≠ [] := by
    simp [hbs_ne]
  have key : crop_rows
      (bs.map (fun b => (List.range 10).map (fun cr => b.map (emb cr))))
      (ws.length / m) i = ws.map (emb i) := by
    simp only [crop_rows]
    rw [← List.map_dropLast, List.map_map]
    have hcong : bs.dropLast.map ((fun batch => batch.getD i []) ∘
        (fun b => (List.range 10).map (fun cr => b.map (emb cr))))
        = bs.dropLast.map (fun b => b.map (emb i)) := by
      apply List.map_congr_left
      intro b hb
      simp only [Function.comp_apply]
      exact getD_range_map _ _ _ _ hi
    rw [hcong, getLastD_of_ne_nil hfull_ne, List.getLast_map,
      getD_range_map _ _ _ _ hi]
    rw [show ws.length / m = ((bs.getLast hbs_ne).map (emb i)).length by
      simp [hlast_len]]
    rw [List.take_length, ← List.map_flatten, ← List.map_append,
      ← List.flatten_concat, List.dropLast_append_getLast hbs_ne, hflat]
  exact ⟨key, by rw [key]; simp⟩

/-- Witness for C6: eighteen windows at capacity 8 split into three
groups of six (k = 6); at crop index 3 the reassembled row list is the
original eighteen windows, in order, each tagged with its crop. -/
theorem c6_reassembly_exact_witness :
    crop_rows (bs18.map (fun b =>
        (List.range 10).map (fun cr => b.map (fun w => (cr, w)))))
        ((List.range 18).length / np_ceil_div (List.range 18).length 8) 3
      = (List.range 18).map (fun w => (3, w)) ∧
    (crop_rows (bs18.map (fun b =>
        (List.range 10).map (fun cr => b.map (fun w => (cr, w)))))
        ((List.range 18).length / np_ceil_div (List.range 18).length 8) 3).length
      = (List.range 18).length :=
  c6_reassembly_exact (List.range 18) 8 (fun cr w => (cr, w)) 3 (by decide)
    (by decide) (by decide) (by decide) bs18 (by decide)

/-- Concrete accumulator contents for the C9 shape analysis: one batch,
10 crops, 5 clip rows per crop, 1024-dimensional zero embeddings (the
I3D dimension after the trailing singleton axes are squeezed). -/
def full_i3d_example : List (List (List (List ℚ))) :=
  [List.replicate 10 (List.replicate 5 (List.replicate 1024 (0 : ℚ)))]

/-- Concrete accumulator contents for the C9 shape analysis: one batch,
10 crops, 5 clip rows per crop, 4096-dimensional zero embeddings (the
C3D dimension). -/
def full_c3d_example : List (List (List (List ℚ))) :=
  [List.replicate 10 (List.replicate 5 (List.replicate 4096 (0 : ℚ)))]

/-- C9 counterexample: the claim says the I3D path transposes the crop
and clip axes relative to the C3D path.  At 5 total clips, both paths
produce an array whose leading axis has length 5 (clips) and whose
second axis has length 10 (crops) — main.py lines 66 and 121 apply the
identical `transpose([1, 0, 2])` — so the I3D leading-axis length does
not equal the C3D second-axis length, refuting any relative crop/clip
transposition between the two paths. -/
theorem c9_no_relative_transpose :
    (extract_i3d_tail full_i3d_example 5).length = 5 ∧
    ((extract_i3d_tail full_i3d_example 5).getD 0 []).length = 10 ∧
    (extract_c3d_tail full_c3d_example 5).length = 5 ∧
    ((extract_c3d_tail full_c3d_example 5).getD 0 []).length = 10 ∧
    ¬((extract_i3d_tail full_i3d_example 5).length
        = ((extract_c3d_tail full_c3d_example 5).getD 0 []).length) := by
  refine ⟨by decide, by decide, by decide, by decide, by decide⟩

/-- C9 amended: both extraction paths produce a (total_clips × 10 ×
embedding_dim) array and their reassembly tails are one and the same
transformation (the source duplicates the code, including the final
crop/clip transpose); there is no relative transposition between the
paths, which differ only in embedding dimension (1024 vs 4096) and the
I3D squeeze of trailing singleton axes. -/
theorem c9_same_layout_shapes {E : Type} [Inhabited E]
    (full : List (List (List E))) (k r : Nat) (hne : full ≠ [])
    (hcrops : ∀ b ∈ full, b.length = 10)
    (hrows : ∀ b ∈ full, ∀ cr ∈ b, cr.length = r) (hk : k ≤ r) :
    extract_i3d_tail full k = extract_c3d_tail full k ∧
    (extract_i3d_tail full k).length = (full.length - 1) * r + k ∧
    (∀ row ∈ extract_i3d_tail full k, row.length = 10) := by
  have hcr : ∀ i, i < 10 → (crop_rows full k i).length
      = (full.length - 1) * r + k := by
    intro i hi10
    have hmap_r : ∀ x ∈ full.dropLast.map (fun batch => (batch.getD i []).length),
        x = r := by
      intro x hx
      obtain ⟨batch, hbmem, rfl⟩ := List.mem_map.mp hx
      have hbfull : batch ∈ full := List.mem_of_mem_dropLast hbmem
      have hblen : batch.length = 10 := hcrops batch hbfull
      have hib : i < batch.length := by omega
      have hgetD : batch.getD i [] = batch.get ⟨i, hib⟩ := by
        rw [List.getD_eq_getElem?_getD, List.getElem?_eq_getElem hib,
          Option.getD_some]
        rfl
      rw [hgetD]
      exact hrows batch hbfull _ (List.get_mem batch i hib)
    have hlast : ((full.getLastD []).getD i []).length = r := by
      rw [getLastD_of_ne_nil hne]
      have hlfull : full.getLast hne ∈ full := List.getLast_mem hne
      have hllen : (full.getLast hne).length = 10 := hcrops _ hlfull
      have hil : i < (full.getLast hne).length := by omega
      have hgetD : (full.getLast hne).getD i [] = (full.getLast hne).get ⟨i, hil⟩ := by
        rw [List.getD_eq_getElem?_getD, List.getElem?_eq_getElem hil,
          Option.getD_some]
        rfl
      rw [hgetD]
      exact hrows _ hlfull _ (List.get_mem _ i hil)
    have hflat_len : ((full.dropLast.map (fun batch => batch.getD i [])).flatten).length
        = (full.length - 1) * r := by
      rw [List.length_flatten, List.map_map]
      have heq : full.dropLast.map (List.length ∘ (fun batch => batch.getD i []))
          = List.replicate full.dropLast.length r := by
        have := List.eq_replicate_of_mem (a := r)
          (l := full.dropLast.map (fun batch => (batch.getD i []).length)) hmap_r
        simpa [Function.comp] using this
      rw [heq, List.sum_replicate, smul_eq_mul, List.length_dropLast]
    simp only [crop_rows, List.length_append, hflat_len, List.length_take, hlast]
    omega
  refine ⟨rfl, ?_, ?_⟩
  · simp only [extract_i3d_tail, transpose_102, List.length_map, List.length_range]
    rw [show (stack_crops full k).getD 0 [] = crop_rows full k 0 from
      getD_range_map _ _ _ _ (by omega)]
    exact hcr 0 (by omega)
  · intro row hrow
    simp only [extract_i3d_tail, transpose_102, List.mem_map] at hrow
    obtain ⟨j, hj, rfl⟩ := hrow
    simp [stack_crops]

/-- Witness for C9 amended, at one batch of five 1024-dimensional rows
per crop with k = 5. -/
theorem c9_same_layout_shapes_witness :
    extract_i3d_tail full_i3d_example 5 = extract_c3d_tail full_i3d_example 5 ∧
    (extract_i3d_tail full_i3d_example 5).length
      = (full_i3d_example.length - 1) * 5 + 5 ∧
    (∀ row ∈ extract_i3d_tail full_i3d_example 5, row.length = 10) :=
  c9_same_layout_shapes full_i3d_example 5 5 (by decide) (by decide)
    (by decide) (by decide)
